import Mathlib

/-!
# Verification of the clap-web audio-embedding application

Shallow embedding of `src/main.ts`: a browser application that embeds audio
files and text queries as vectors, stores them in a vector database
(the external `idb-vector` library, modelled from the spec where its code is
not in the repository), and ranks stored records by similarity.

Float32 vector components are modelled as rationals (every IEEE-754 float is
a rational); the cosine-similarity metric itself is modelled over the reals
so that norms are exact. The ranking engine is parameterised by the
similarity function's score type, since its sorting/tie-break/truncation
logic is independent of the metric.
-/

namespace ClapWeb

/-- A stored record, per the spec's data model: stable integer key assigned
by the store, display label, embedding vector, tags. -/
structure Record where
  key : Nat
  content : String
  embedding : List ℚ
  tags : List String
  deriving Repr, DecidableEq

/-- The vector store backing `db` (the `idb-vector` database).
`dim` is the established dimensionality `D` (`none` until the first insert
establishes it), `nextKey` the next auto-incremented key (IndexedDB keys
start at 1), `records` the persisted collection in insertion order. -/
structure Store where
  dim : Option Nat
  nextKey : Nat
  records : List Record
  deriving Repr, DecidableEq

/-- Errors of the store contract (spec §7 taxonomy, restricted to the
deterministic ones the model can decide). -/
inductive DBError where
  | dimensionMismatch
  | notInitialized
  deriving Repr, DecidableEq

/-- Modelled from the spec: `idb-vector`'s `insert` is not in the repository.
Per spec §4.1/§3: appends a new record, assigns the next key; the first
insert establishes the store's dimensionality `D`; a vector whose length
differs from the established `D` is rejected with `DimensionMismatch`
(no silent padding or truncation). -/
def Store.insert (s : Store) (content : String) (embedding : List ℚ)
    (tags : List String) : Except DBError (Store × Nat) :=
  match s.dim with
  | none =>
      .ok (⟨some embedding.length, s.nextKey + 1,
            s.records ++ [⟨s.nextKey, content, embedding, tags⟩]⟩, s.nextKey)
  | some d =>
      if embedding.length = d then
        .ok (⟨some d, s.nextKey + 1,
              s.records ++ [⟨s.nextKey, content, embedding, tags⟩]⟩, s.nextKey)
      else
        .error .dimensionMismatch

/-- A fresh store as produced by `initVectorDB` (`new VectorDB({...})`):
no established dimension, no records, keys starting at 1. -/
def Store.fresh : Store := ⟨none, 1, []⟩

/-- A query result, as the source types it: the stored object's fields,
the similarity score, and the record's key. -/
structure QueryResult (α : Type) where
  content : String
  tags : List String
  embedding : List ℚ
  similarity : α
  key : Nat
  deriving Repr, DecidableEq

/-- The output order of the ranking engine (spec §4.2): descending by
similarity, ties broken by ascending key (earliest-inserted wins). -/
def resOrder {α : Type} [LinearOrder α] (x y : QueryResult α) : Prop :=
  y.similarity < x.similarity ∨
    (x.similarity = y.similarity ∧ x.key ≤ y.key)

instance {α : Type} [LinearOrder α] : DecidableRel (resOrder (α := α)) :=
  fun _x _y => inferInstanceAs (Decidable (_ ∨ _ ∧ _))

instance {α : Type} [LinearOrder α] : IsTotal (QueryResult α) resOrder where
  total x y := by
    rcases lt_trichotomy x.similarity y.similarity with h | h | h
    · exact Or.inr (Or.inl h)
    · rcases Nat.le_total x.key y.key with hk | hk
      · exact Or.inl (Or.inr ⟨h, hk⟩)
      · exact Or.inr (Or.inr ⟨h.symm, hk⟩)
    · exact Or.inl (Or.inl h)

instance {α : Type} [LinearOrder α] : IsTrans (QueryResult α) resOrder where
  trans x y z hxy hyz := by
    rcases hxy with h1 | ⟨e1, k1⟩
    · rcases hyz with h2 | ⟨e2, _⟩
      · exact Or.inl (h2.trans h1)
      · exact Or.inl (e2 ▸ h1)
    · rcases hyz with h2 | ⟨e2, k2⟩
      · exact Or.inl (e1 ▸ h2)
      · exact Or.inr ⟨e1.trans e2, k1.trans k2⟩

/-- Does the query vector's length mismatch the store's established
dimension? (`false` when no dimension is established yet.) -/
def Store.dimMismatch (s : Store) (q : List ℚ) : Bool :=
  match s.dim with
  | none => false
  | some d => q.length != d

/-- Modelled from the spec: `idb-vector`'s `query` (the similarity query
engine behind `db.query(array, { limit: k })`) is not in the repository.
Per spec §4.2: reject (return empty, report the condition) when the query
vector's dimension mismatches the store's `D`; otherwise compute the
similarity of every record, sort descending by similarity with ties broken
by ascending key, and return the top `k`. The second component is the
reported rejection condition, if any. -/
def Store.rank {α : Type} [LinearOrder α] (sim : List ℚ → List ℚ → α)
    (s : Store) (q : List ℚ) (k : Nat) :
    List (QueryResult α) × Option String :=
  if s.dimMismatch q then
    ([], some "dimension mismatch")
  else
    ((List.insertionSort resOrder
        (s.records.map fun r =>
          ⟨r.content, r.tags, r.embedding, sim q r.embedding, r.key⟩)).take k,
     none)

/-- `searchDB` from the source: returns `[]` and reports when the database
is not initialised or the query embedding is empty; otherwise delegates to
the store's query engine with `limit = k`. The second component is the list
of status messages reported. -/
def searchDB {α : Type} [LinearOrder α] (sim : List ℚ → List ℚ → α)
    (db : Option Store) (embedding : List ℚ) (k : Nat) :
    List (QueryResult α) × List String :=
  match db with
  | none => ([], ["Database not initialized."])
  | some s =>
      if embedding.isEmpty then
        ([], ["Cannot search with empty embedding."])
      else
        match s.rank sim embedding k with
        | (results, none) => (results, [])
        | (results, some c) => (results, [c])

/-- `insertIntoDB` from the source: reports `NotReady` when `db` is null;
otherwise inserts, reporting success or the caught insertion error and
leaving the held store unchanged on error. Returns the new `db` and the
status messages reported. -/
def insertIntoDB (db : Option Store) (content : String) (embedding : List ℚ)
    (tags : List String) : Option Store × List String :=
  match db with
  | none => (none, ["Database not initialized."])
  | some s =>
      match s.insert content embedding tags with
      | .ok (s', _) => (some s', ["Inserted: " ++ content])
      | .error _ => (some s, ["Error inserting into DB"])

/-- A computable similarity function (rational dot product), used to
instantiate the score-type parameter in concrete evaluations. -/
def dotQ (a b : List ℚ) : ℚ := (List.zipWith (· * ·) a b).sum

/-! ## Encoder adapters (`getTextEmbedding`, `getAudioEmbedding`) -/

/-- The four module-level model singletons of the source
(`tokenizer`, `textModel`, `audioProcessor`, `audioModel`): `true` means
the variable is non-null, i.e. that component has been loaded. -/
structure ModelsState where
  tokenizer : Bool
  textModel : Bool
  audioProcessor : Bool
  audioModel : Bool
  deriving Repr, DecidableEq

/-- `getTextEmbedding` from the source. The external encoder's outcome is
abstracted as `encodeResult` (`none` = the tokenizer/model call threw).
Returns the embedding or `null`, the (unchanged) model state — the function
never loads a model — and the status messages reported. -/
def getTextEmbedding (m : ModelsState) (encodeResult : Option (List ℚ)) :
    Option (List ℚ) × ModelsState × List String :=
  if m.tokenizer && m.textModel then
    match encodeResult with
    | some v => (some v, m, [])
    | none => (none, m, ["Error creating text embedding"])
  else
    (none, m, ["Text model or tokenizer not loaded."])

/-- `getAudioEmbedding` from the source, tracking the browser's object-URL
registry (the list of currently allocated object URLs). `u` is the URL
`URL.createObjectURL` would return for this call (fresh by the browser
API's contract); `createFails` says whether that call itself throws;
`encodeResult` abstracts the outcome of `read_audio` / processor / model
(`none` = one of them threw, caught by the `catch`). The `finally` block
revokes the URL whenever it was created. Returns the embedding or `null`,
the (unchanged) model state, the registry after the call, and the status
messages reported. -/
def getAudioEmbedding (m : ModelsState) (createFails : Bool)
    (encodeResult : Option (List ℚ)) (u : Nat) (registry : List Nat) :
    Option (List ℚ) × ModelsState × List Nat × List String :=
  if m.audioProcessor && m.audioModel then
    if createFails then
      (none, m, registry, ["Error creating audio embedding"])
    else
      match encodeResult with
      | some v => (some v, m, (registry ++ [u]).erase u, [])
      | none =>
          (none, m, (registry ++ [u]).erase u,
           ["Error creating audio embedding"])
  else
    (none, m, registry, ["Audio model or processor not loaded."])

/-! ## Clearing the database (`clearDB`) -/

/-- The three outcomes of `indexedDB.deleteDatabase` (spec §4.4/§6: the
asynchronous delete completes with success, blocked, or error), decided by
the environment. -/
inductive ClearOutcome where
  | success
  | blocked
  | error
  deriving Repr, DecidableEq

/-- `clearDB` from the source: if `db` is null, report and stop. Otherwise
issue `indexedDB.deleteDatabase(DB_NAME)`; on success the backing database
is destroyed (so the stale handle next sees a fresh, empty database), but
the in-memory `db` variable is NOT reassigned — the source never sets
`db = null`. Returns the new `db` and the status messages reported. -/
def clearDB (db : Option Store) (outcome : ClearOutcome) :
    Option Store × List String :=
  match db with
  | none => (none, ["Database not initialized."])
  | some s =>
      match outcome with
      | .success => (some Store.fresh, ["Database cleared."])
      | .blocked => (some s, ["Database clearing was blocked"])
      | .error => (some s, ["Error clearing DB"])

/-! ## Batch embedding (`handleEmbedAudioFolder`) -/

/-- One supplied file, with the outcomes of the external calls on it:
`ftype` is the media type (`file.type`), `embedResult` abstracts
`getAudioEmbedding`'s outcome on the file (`none` = encode failure, with
its error message reported as in `getAudioEmbedding`). -/
structure FileModel where
  name : String
  ftype : String
  embedResult : Option (List ℚ)
  deriving Repr, DecidableEq

/-- Is the file classified as audio (`file.type.startsWith("audio/")`)?
Stated over the media-type string's character sequence (`startsWith` is
exactly prefix of the character sequence), which the kernel can
evaluate. -/
def FileModel.isAudio (f : FileModel) : Bool :=
  List.isPrefixOf "audio/".data f.ftype.data

/-- The `for (const file of files)` loop of `handleEmbedAudioFolder`,
processing files sequentially in the order supplied. Returns the final
store, the `count` of files for which an insert was attempted (the source
increments `count` after `insertIntoDB` whether or not the insert
succeeded), the error messages reported (one per encode failure, one per
rejected insert), and the number of skipped non-audio files. -/
def processFiles (s : Store) : List FileModel → Store × Nat × List String × Nat
  | [] => (s, 0, [], 0)
  | f :: fs =>
      if f.isAudio then
        match f.embedResult with
        | some emb =>
            match s.insert f.name emb ["audio", f.ftype] with
            | .ok (s', _) =>
                match processFiles s' fs with
                | (s2, c, e, sk) => (s2, c + 1, e, sk)
            | .error _ =>
                match processFiles s fs with
                | (s2, c, e, sk) =>
                    (s2, c + 1, "Error inserting into DB" :: e, sk)
        | none =>
            match processFiles s fs with
            | (s2, c, e, sk) =>
                (s2, c, "Error creating audio embedding" :: e, sk)
      else
        match processFiles s fs with
        | (s2, c, e, sk) => (s2, c, e, sk + 1)

/-- `handleEmbedAudioFolder` from the source: early-return when no files
are supplied or the models/db are not ready; otherwise run the sequential
loop over the supplied files. -/
def handleEmbedAudioFolder (m : ModelsState) (db : Option Store)
    (files : List FileModel) : Option Store × Nat × List String × Nat :=
  if files.isEmpty then (db, 0, [], 0)
  else if !(m.audioModel && m.audioProcessor) then (db, 0, [], 0)
  else
    match db with
    | none => (none, 0, [], 0)
    | some s =>
        match processFiles s files with
        | (s', c, e, sk) => (some s', c, e, sk)

/-! ## The UI mutual-exclusion machine

The source serialises user-triggered operations through
`disableControls`: `handleEmbedAudioFolder`, `handleTextSearch` and
`handleAudioFileSearch` call `disableControls(true)` on entry and
`disableControls(false)` on exit, and a disabled control cannot start an
operation. `clearDB` never calls `disableControls`, and the completion
callbacks of the asynchronous `indexedDB.deleteDatabase` do not either. -/

/-- The four user-triggered operation classes. -/
inductive OpClass where
  | batchEmbed
  | textSearch
  | audioSearch
  | clear
  deriving Repr, DecidableEq

/-- Does the operation's handler call `disableControls(true)` on entry and
`disableControls(false)` on completion? From the source: the three
embed/search handlers do; `clearDB` does not. -/
def opDisables : OpClass → Bool
  | .batchEmbed => true
  | .textSearch => true
  | .audioSearch => true
  | .clear => false

/-- UI state: whether the controls are disabled, and the multiset of
operations currently Running (in flight). -/
structure UIState where
  controlsDisabled : Bool
  running : List OpClass
  deriving Repr, DecidableEq

/-- A user-visible event: an operation's start (the button's click handler
begins) or its asynchronous completion. -/
inductive UIEvent where
  | start (op : OpClass)
  | finish (op : OpClass)
  deriving Repr, DecidableEq

/-- One step of the UI machine, from the source's handlers: a click on a
disabled control is ignored; a started handler disables the controls iff
`opDisables`; a finishing handler re-enables them iff `opDisables`;
finishing an operation that is not running is a no-op. -/
def uiStep (s : UIState) : UIEvent → UIState
  | .start op =>
      if s.controlsDisabled then s
      else ⟨s.controlsDisabled || opDisables op, op :: s.running⟩
  | .finish op =>
      if op ∈ s.running then
        ⟨if opDisables op then false else s.controlsDisabled,
         s.running.erase op⟩
      else s

/-- The UI state after startup (`main` re-enables the controls once the
models and the database have loaded). -/
def uiInit : UIState := ⟨false, []⟩

/-- Run the UI machine on a sequence of events from the post-startup
state. -/
def uiRun (events : List UIEvent) : UIState :=
  events.foldl uiStep uiInit

/-- The number of Running operations other than `clear`. -/
def nonClearRunning (s : UIState) : Nat :=
  (s.running.filter fun op => op != OpClass.clear).length

/-! ## Cosine similarity

Modelled from the spec: the similarity metric lives in the external
`idb-vector` library. Per spec §4.2: cosine similarity
`dot(a,b) / (‖a‖·‖b‖)`, defined as `0` when either vector has zero norm,
never raising a division fault (division is total here). Modelled over the
reals so norms are exact. -/

/-- Dot product of two real vectors (pairwise products, summed). -/
def dotR (a b : List ℝ) : ℝ := (List.zipWith (· * ·) a b).sum

/-- Euclidean norm of a real vector. -/
noncomputable def normR (a : List ℝ) : ℝ := Real.sqrt (dotR a a)

/-- Modelled from the spec: cosine similarity, `0` on zero-norm input. -/
noncomputable def cosineSim (a b : List ℝ) : ℝ :=
  if normR a = 0 ∨ normR b = 0 then 0 else dotR a b / (normR a * normR b)

/-! ## Derived counts and summary predicates -/

/-- A file that is classified as audio and whose encoding succeeds, so that
an insert is attempted for it. -/
def audioEncoded (f : FileModel) : Bool :=
  f.isAudio && f.embedResult.isSome

/-- `M`: the number of supplied files that are audio but fail encoding. -/
def encodeFailures (files : List FileModel) : Nat :=
  (files.filter fun f => f.isAudio && f.embedResult.isNone).length

/-- The number of supplied files skipped as non-audio. -/
def skippedCount (files : List FileModel) : Nat :=
  (files.filter fun f => !f.isAudio).length

/-- The number of supplied files for which an insert is attempted. -/
def processedCount (files : List FileModel) : Nat :=
  (files.filter audioEncoded).length

/-- The mutual-exclusion invariant the UI machine actually maintains: at
most one operation other than `clear` is Running, and the controls are
disabled whenever one is. -/
def uiInv (s : UIState) : Prop :=
  nonClearRunning s ≤ 1 ∧ (1 ≤ nonClearRunning s → s.controlsDisabled = true)

/-- All encodable embeddings among the supplied files have length `d`. -/
def FilesFit (d : Nat) (files : List FileModel) : Prop :=
  ∀ f ∈ files, ∀ emb, f.embedResult = some emb → f.isAudio = true →
    emb.length = d

/-- The batch-embed run summary relation: `processed = N - M - skipped`
unconditionally; the recorded errors are `M` plus the number `r` of
rejected inserts and the store gains `processed - r` records; when every
encoded embedding fits the store's established dimension there are no
rejected inserts, so exactly `M` errors are recorded and the store gains
exactly `processed` records. -/
def BatchSummary (m : ModelsState) (s : Store) (files : List FileModel)
    (d : Nat) : Prop :=
  (handleEmbedAudioFolder m (some s) files).2.1
      = files.length - encodeFailures files - skippedCount files ∧
  (∃ s' g r, (handleEmbedAudioFolder m (some s) files).1 = some s' ∧
      s'.records.length = s.records.length + g ∧
      (handleEmbedAudioFolder m (some s) files).2.1 = g + r ∧
      (handleEmbedAudioFolder m (some s) files).2.2.1.length
        = encodeFailures files + r) ∧
  ((s.dim = none ∨ s.dim = some d) → FilesFit d files →
    (handleEmbedAudioFolder m (some s) files).2.2.1.length
      = encodeFailures files ∧
    ∃ s', (handleEmbedAudioFolder m (some s) files).1 = some s' ∧
      s'.records.length
        = s.records.length + (handleEmbedAudioFolder m (some s) files).2.1)

/-- The batch-embed ordering relation: the store is extended, in supply
order, by one record per successfully processed file, with keys assigned
in strictly increasing (consecutive) order. -/
def BatchOrder (m : ModelsState) (s : Store) (files : List FileModel) :
    Prop :=
  ∃ s' newRecs,
    (handleEmbedAudioFolder m (some s) files).1 = some s' ∧
    s'.records = s.records ++ newRecs ∧
    newRecs.map (fun r => r.content)
      = (files.filter audioEncoded).map (fun f => f.name) ∧
    newRecs.map (fun r => r.key)
      = List.range' s.nextKey (processedCount files) ∧
    (newRecs.map (fun r => r.key)).Pairwise (· < ·)

/-- `initVectorDB` from the source: constructs the `VectorDB` handle, or
reports failure and leaves `db` null when the constructor throws. -/
def initVectorDB (ctorFails : Bool) : Option Store × List String :=
  if ctorFails then
    (none, ["Failed to initialize vector database."])
  else
    (some Store.fresh, ["Vector database initialized."])

/-! ## Cosine-similarity lemmas -/

theorem dotR_comm (a b : List ℝ) : dotR a b = dotR b a := by
  unfold dotR
  rw [List.zipWith_comm_of_comm _ mul_comm]

theorem dotR_self_nonneg (a : List ℝ) : 0 ≤ dotR a a := by
  unfold dotR
  rw [List.zipWith_same]
  refine List.sum_nonneg ?_
  intro x hx
  obtain ⟨y, _, rfl⟩ := List.mem_map.mp hx
  exact mul_self_nonneg y

theorem normR_mul_self (a : List ℝ) : normR a * normR a = dotR a a :=
  Real.mul_self_sqrt (dotR_self_nonneg a)

/-- C6: the similarity metric is cosine similarity `dot(a,b)/(‖a‖·‖b‖)`;
it is symmetric, self-similarity of every vector of non-zero norm is
exactly `1` (the real-valued idealisation of "1.0 within floating-point
tolerance"), and similarity involving a zero-norm vector is defined as `0`
(`cosineSim` is a total function, so no division fault can occur). -/
theorem cosineSim_props :
    (∀ a b : List ℝ, cosineSim a b = cosineSim b a) ∧
    (∀ a : List ℝ, normR a ≠ 0 → cosineSim a a = 1) ∧
    (∀ a b : List ℝ, normR a = 0 ∨ normR b = 0 → cosineSim a b = 0) := by
  refine ⟨?_, ?_, ?_⟩
  · intro a b
    unfold cosineSim
    rw [dotR_comm a b, mul_comm (normR a) (normR b)]
    exact if_congr or_comm rfl rfl
  · intro a hn
    have hd : dotR a a ≠ 0 := by
      intro h
      apply hn
      unfold normR
      rw [h, Real.sqrt_zero]
    unfold cosineSim
    rw [if_neg (by push_neg; exact ⟨hn, hn⟩), normR_mul_self a]
    exact div_self hd
  · intro a b h
    unfold cosineSim
    exact if_pos h

theorem cosineSim_props_witness :
    cosineSim [(1 : ℝ)] [(1 : ℝ)] = 1 ∧
    cosineSim [(0 : ℝ)] [(1 : ℝ)] = 0 := by
  have h1 : normR [(1 : ℝ)] ≠ 0 := by
    unfold normR dotR
    simp
  have h0 : normR [(0 : ℝ)] = 0 := by
    unfold normR dotR
    simp
  exact ⟨cosineSim_props.2.1 [(1 : ℝ)] h1,
         cosineSim_props.2.2 [(0 : ℝ)] [(1 : ℝ)] (Or.inl h0)⟩

/-! ## Encoder claims -/

/-- C7: for both the text and the audio encoder, calling embed before the
models are loaded returns the failure result `none` immediately, reports
the not-loaded condition, and leaves the model state (and, for audio, the
object-URL registry) unchanged — no implicit load is triggered. -/
theorem embed_before_ready (m : ModelsState) (enc : Option (List ℚ))
    (cf : Bool) (u : Nat) (reg : List Nat) :
    ((m.tokenizer && m.textModel) = false →
      getTextEmbedding m enc
        = (none, m, ["Text model or tokenizer not loaded."])) ∧
    ((m.audioProcessor && m.audioModel) = false →
      getAudioEmbedding m cf enc u reg
        = (none, m, reg, ["Audio model or processor not loaded."])) := by
  constructor
  · intro h
    simp [getTextEmbedding, h]
  · intro h
    simp [getAudioEmbedding, h]

theorem embed_before_ready_witness :
    getTextEmbedding ⟨false, false, false, false⟩ (some [1])
      = (none, ⟨false, false, false, false⟩,
         ["Text model or tokenizer not loaded."]) ∧
    getAudioEmbedding ⟨false, false, false, false⟩ false (some [1]) 7 [3]
      = (none, ⟨false, false, false, false⟩, [3],
         ["Audio model or processor not loaded."]) :=
  ⟨(embed_before_ready ⟨false, false, false, false⟩ (some [1]) false 7 [3]).1
      rfl,
   (embed_before_ready ⟨false, false, false, false⟩ (some [1]) false 7 [3]).2
      rfl⟩

/-- C10: every call to `getAudioEmbedding` leaves the object-URL registry
as it found it, on the success path and on every error path alike: either
no URL is created, or the created URL is revoked by the `finally` block
before the call returns. `u ∉ registry` is the freshness guarantee of
`URL.createObjectURL`. -/
theorem getAudioEmbedding_registry (m : ModelsState) (cf : Bool)
    (enc : Option (List ℚ)) (u : Nat) (registry : List Nat)
    (hu : u ∉ registry) :
    (getAudioEmbedding m cf enc u registry).2.2.1 = registry := by
  have herase : (registry ++ [u]).erase u = registry := by
    rw [List.erase_append_right _ hu]
    simp
  unfold getAudioEmbedding
  by_cases h : (m.audioProcessor && m.audioModel) = true
  · cases cf
    · cases enc <;> simp [h, herase]
    · simp [h]
  · simp [h]

theorem getAudioEmbedding_registry_witness :
    (getAudioEmbedding ⟨true, true, true, true⟩ false (some [1]) 5
        [1, 2]).2.2.1 = [1, 2] :=
  getAudioEmbedding_registry ⟨true, true, true, true⟩ false (some [1]) 5
    [1, 2] (by decide)

/-! ## Insert claims -/

/-- C5: inserting a vector whose length differs from the store's
established dimensionality `D` is rejected with `DimensionMismatch` (no
silent padding or truncation), and the held store — in particular its
size — is unchanged by the rejected insert. -/
theorem insert_dim_mismatch (s : Store) (d : Nat) (content : String)
    (emb : List ℚ) (tags : List String) (hd : s.dim = some d)
    (hlen : emb.length ≠ d) :
    s.insert content emb tags = .error .dimensionMismatch ∧
    insertIntoDB (some s) content emb tags
      = (some s, ["Error inserting into DB"]) := by
  have h1 : s.insert content emb tags = .error .dimensionMismatch := by
    unfold Store.insert
    rw [hd]
    simp [hlen]
  exact ⟨h1, by simp [insertIntoDB, h1]⟩

theorem insert_dim_mismatch_witness :
    Store.insert ⟨some 1, 2, []⟩ "x" [1, 2] []
      = .error .dimensionMismatch ∧
    insertIntoDB (some ⟨some 1, 2, []⟩) "x" [1, 2] []
      = (some ⟨some 1, 2, []⟩, ["Error inserting into DB"]) :=
  insert_dim_mismatch ⟨some 1, 2, []⟩ 1 "x" [1, 2] [] rfl (by decide)

/-! ## Search rejection claims -/

/-- C8: the search operation returns an empty result sequence and reports
the condition — rather than raising a fault or returning partial results —
both when the query vector is empty and when its dimension mismatches the
store's established `D`. -/
theorem searchDB_rejects {α : Type} [LinearOrder α]
    (sim : List ℚ → List ℚ → α) (s : Store) (q : List ℚ) (k d : Nat) :
    (searchDB sim (some s) [] k
      = ([], ["Cannot search with empty embedding."])) ∧
    (q ≠ [] → s.dim = some d → q.length ≠ d →
      searchDB sim (some s) q k = ([], ["dimension mismatch"])) := by
  constructor
  · simp [searchDB]
  · intro hq hd hlen
    have hmm : s.dimMismatch q = true := by
      unfold Store.dimMismatch
      rw [hd]
      simpa using hlen
    simp [searchDB, hq, Store.rank, hmm]

theorem searchDB_rejects_witness :
    (searchDB dotQ (some ⟨some 1, 2, []⟩) [] 3
      = ([], ["Cannot search with empty embedding."])) ∧
    (searchDB dotQ (some ⟨some 1, 2, []⟩) [1, 2] 3
      = ([], ["dimension mismatch"])) :=
  ⟨(searchDB_rejects dotQ ⟨some 1, 2, []⟩ [1, 2] 3 1).1,
   (searchDB_rejects dotQ ⟨some 1, 2, []⟩ [1, 2] 3 1).2 (by decide) rfl
     (by decide)⟩

/-! ## The ranking contract (C1) -/

/-- C1, counterexample to the claim as stated: the claim quantifies over
every query vector, but for the empty query vector — and likewise for a
query vector whose dimension mismatches the store's established `D` — the
search operation rejects and returns the empty sequence, not
`min(k, storeSize)` results: with one stored record and `k = 1` it
returns `0` results, not `1`. -/
theorem searchDB_length_cex :
    ¬ ((searchDB dotQ (some ⟨some 1, 2, [⟨1, "a", [1], []⟩]⟩) [] 1).1.length
        = min 1 (⟨some 1, 2, [⟨1, "a", [1], []⟩]⟩ : Store).records.length) ∧
    ¬ ((searchDB dotQ (some ⟨some 1, 2, [⟨1, "a", [1], []⟩]⟩)
          [1, 2] 1).1.length
        = min 1 (⟨some 1, 2, [⟨1, "a", [1], []⟩]⟩ : Store).records.length) := by
  exact ⟨by decide, by decide⟩

/-- C1 as amended: for every non-empty query vector whose dimension does
not mismatch the store's established `D`, and every `k`, the search
operation returns a sequence of length `min(k, storeSize)` — exactly `k`
results when `k ≤ storeSize`, store-size results when `k > storeSize` —
sorted by non-increasing similarity with ties broken by ascending
insertion key (`resOrder`). Stated for every score type and similarity
function, hence in particular for cosine similarity. -/
theorem searchDB_rank_spec {α : Type} [LinearOrder α]
    (sim : List ℚ → List ℚ → α) (s : Store) (q : List ℚ) (k : Nat)
    (hq : q ≠ []) (hdim : s.dimMismatch q = false) :
    (searchDB sim (some s) q k).1.length = min k s.records.length ∧
    List.Sorted resOrder (searchDB sim (some s) q k).1 := by
  have hres : (searchDB sim (some s) q k).1
      = (List.insertionSort resOrder
          (s.records.map fun r =>
            ⟨r.content, r.tags, r.embedding, sim q r.embedding, r.key⟩)).take
          k := by
    simp [searchDB, hq, Store.rank, hdim]
  rw [hres]
  constructor
  · rw [List.length_take, List.length_insertionSort, List.length_map]
  · exact (List.sorted_insertionSort resOrder _).sublist
      (List.take_sublist _ _)

theorem searchDB_rank_spec_witness :
    (([1] : List ℚ) ≠ []) ∧
    ((searchDB dotQ
        (some ⟨some 1, 3, [⟨1, "a", [1], []⟩, ⟨2, "b", [1], []⟩]⟩)
        [1] 5).1.length = min 5 2 ∧
     List.Sorted resOrder
       (searchDB dotQ
         (some ⟨some 1, 3, [⟨1, "a", [1], []⟩, ⟨2, "b", [1], []⟩]⟩)
         [1] 5).1) :=
  ⟨by decide,
   searchDB_rank_spec dotQ ⟨some 1, 3, [⟨1, "a", [1], []⟩, ⟨2, "b", [1], []⟩]⟩
     [1] 5 (by decide) (by decide)⟩

/-! ## The single-Running-operation invariant (C2) -/

theorem uiInv_init : uiInv uiInit := ⟨by decide, by decide⟩

theorem filter_cons_ne (op : OpClass) (l : List OpClass) :
    ((op :: l).filter fun o => o != OpClass.clear)
      = if op = OpClass.clear then l.filter fun o => o != OpClass.clear
        else op :: l.filter fun o => o != OpClass.clear := by
  cases op <;> rfl

theorem uiInv_step (s : UIState) (e : UIEvent) (h : uiInv s) :
    uiInv (uiStep s e) := by
  simp only [uiInv, nonClearRunning] at h ⊢
  obtain ⟨h1, h2⟩ := h
  cases e with
  | start op =>
      have hstep : uiStep s (.start op)
          = if s.controlsDisabled then s
            else ⟨s.controlsDisabled || opDisables op, op :: s.running⟩ :=
        rfl
      by_cases hd : s.controlsDisabled = true
      · rw [hstep, if_pos hd]
        exact ⟨h1, h2⟩
      · have hb : s.controlsDisabled = false := by
          cases hcd : s.controlsDisabled
          · rfl
          · exact absurd hcd hd
        have hc : (s.running.filter fun o => o != OpClass.clear).length
            = 0 := by
          by_contra hne
          rw [h2 (Nat.one_le_iff_ne_zero.mpr hne)] at hb
          cases hb
        rw [hstep, if_neg hd, hb]
        simp only [Bool.false_or]
        rw [filter_cons_ne]
        cases op with
        | clear =>
            rw [if_pos rfl]
            refine ⟨by omega, fun hge => ?_⟩
            rw [hc] at hge
            exact absurd hge (by omega)
        | batchEmbed =>
            rw [if_neg (by decide)]
            simp only [List.length_cons, hc]
            exact ⟨by omega, fun _ => rfl⟩
        | textSearch =>
            rw [if_neg (by decide)]
            simp only [List.length_cons, hc]
            exact ⟨by omega, fun _ => rfl⟩
        | audioSearch =>
            rw [if_neg (by decide)]
            simp only [List.length_cons, hc]
            exact ⟨by omega, fun _ => rfl⟩
  | finish op =>
      have hstep : uiStep s (.finish op)
          = if op ∈ s.running then
              ⟨if opDisables op then false else s.controlsDisabled,
               s.running.erase op⟩
            else s := rfl
      by_cases hm : op ∈ s.running
      · have hlen :=
          ((List.perm_cons_erase hm).filter
            fun o => o != OpClass.clear).length_eq
        rw [filter_cons_ne] at hlen
        rw [hstep, if_pos hm]
        cases op with
        | clear =>
            rw [if_pos rfl] at hlen
            simp only [opDisables, Bool.false_eq_true, if_false]
            exact ⟨by omega, fun hge => h2 (by omega)⟩
        | batchEmbed =>
            rw [if_neg (by decide)] at hlen
            simp only [opDisables, if_true]
            simp only [List.length_cons] at hlen
            exact ⟨by omega, fun hge => absurd hge (by omega)⟩
        | textSearch =>
            rw [if_neg (by decide)] at hlen
            simp only [opDisables, if_true]
            simp only [List.length_cons] at hlen
            exact ⟨by omega, fun hge => absurd hge (by omega)⟩
        | audioSearch =>
            rw [if_neg (by decide)] at hlen
            simp only [opDisables, if_true]
            simp only [List.length_cons] at hlen
            exact ⟨by omega, fun hge => absurd hge (by omega)⟩
      · rw [hstep, if_neg hm]
        exact ⟨h1, h2⟩

theorem uiInv_run (events : List UIEvent) : uiInv (uiRun events) := by
  unfold uiRun
  suffices h : ∀ s, uiInv s → uiInv (events.foldl uiStep s) from
    h uiInit uiInv_init
  induction events with
  | nil => exact fun s hs => hs
  | cons e es ih => exact fun s hs => ih (uiStep s e) (uiInv_step s e hs)

/-- C2, counterexample to the claim as stated: `clearDB` never calls
`disableControls`, so a Running clear does not disable the controls, and a
second operation can start while the clear is still Running — two
operations Running at once. -/
theorem ui_single_running_cex :
    ¬ (((uiRun [UIEvent.start OpClass.clear,
                UIEvent.start OpClass.batchEmbed]).running.length ≤ 1) ∧
       ((uiRun [UIEvent.start OpClass.clear]).running ≠ [] →
         (uiRun [UIEvent.start OpClass.clear]).controlsDisabled = true)) := by
  decide

/-- C2 as amended: at most one operation of the batch-embed, text-search
and audio-search classes is Running at any time, and the controls are
disabled whenever one of them is Running — their handlers disable every
control for their duration, and a start while the controls are disabled is
ignored. `clearDB` does not disable the controls, so a clear may be
Running concurrently with one other operation. -/
theorem ui_mutual_exclusion (events : List UIEvent) :
    nonClearRunning (uiRun events) ≤ 1 ∧
    (1 ≤ nonClearRunning (uiRun events) →
      (uiRun events).controlsDisabled = true) :=
  uiInv_run events

theorem ui_mutual_exclusion_witness :
    nonClearRunning (uiRun [UIEvent.start OpClass.batchEmbed]) ≤ 1 ∧
    (uiRun [UIEvent.start OpClass.batchEmbed]).controlsDisabled = true :=
  ⟨(ui_mutual_exclusion [UIEvent.start OpClass.batchEmbed]).1,
   (ui_mutual_exclusion [UIEvent.start OpClass.batchEmbed]).2 (by decide)⟩

/-! ## Clearing and the stale handle (C3) -/

/-- C3, counterexample to the claim as stated: `clearDB` never reassigns
the module-level `db` variable, so after a successful clear the in-memory
store handle is NOT invalidated, and an insert attempted before any
re-initialization succeeds (it is applied to the freshly recreated empty
database through the stale handle) instead of failing with `NotReady`. -/
theorem clear_then_insert_cex :
    (clearDB (some ⟨some 1, 2, [⟨1, "a", [1], []⟩]⟩)
        ClearOutcome.success).1 ≠ none ∧
    insertIntoDB
        (clearDB (some ⟨some 1, 2, [⟨1, "a", [1], []⟩]⟩)
          ClearOutcome.success).1 "x" [1, 2] []
      = (some ⟨some 2, 2, [⟨1, "x", [1, 2], []⟩]⟩, ["Inserted: x"]) := by
  decide

/-! ## Batch-embed reduction lemmas -/

theorem processFiles_cons_audio_ok (s : Store) (f : FileModel)
    (fs : List FileModel) (emb : List ℚ) (s' : Store) (k : Nat)
    (hA : f.isAudio = true) (hE : f.embedResult = some emb)
    (hI : s.insert f.name emb ["audio", f.ftype] = .ok (s', k)) :
    processFiles s (f :: fs)
      = ((processFiles s' fs).1, (processFiles s' fs).2.1 + 1,
         (processFiles s' fs).2.2.1, (processFiles s' fs).2.2.2) := by
  rw [processFiles, if_pos hA, hE]
  simp only [hI]

theorem processFiles_cons_audio_err (s : Store) (f : FileModel)
    (fs : List FileModel) (emb : List ℚ) (err : DBError)
    (hA : f.isAudio = true) (hE : f.embedResult = some emb)
    (hI : s.insert f.name emb ["audio", f.ftype] = .error err) :
    processFiles s (f :: fs)
      = ((processFiles s fs).1, (processFiles s fs).2.1 + 1,
         "Error inserting into DB" :: (processFiles s fs).2.2.1,
         (processFiles s fs).2.2.2) := by
  rw [processFiles, if_pos hA, hE]
  simp only [hI]

theorem processFiles_cons_encFail (s : Store) (f : FileModel)
    (fs : List FileModel) (hA : f.isAudio = true)
    (hE : f.embedResult = none) :
    processFiles s (f :: fs)
      = ((processFiles s fs).1, (processFiles s fs).2.1,
         "Error creating audio embedding" :: (processFiles s fs).2.2.1,
         (processFiles s fs).2.2.2) := by
  rw [processFiles, if_pos hA, hE]

theorem processFiles_cons_skip (s : Store) (f : FileModel)
    (fs : List FileModel) (hA : f.isAudio = false) :
    processFiles s (f :: fs)
      = ((processFiles s fs).1, (processFiles s fs).2.1,
         (processFiles s fs).2.2.1, (processFiles s fs).2.2.2 + 1) := by
  rw [processFiles, if_neg (by rw [hA]; exact Bool.false_ne_true)]

theorem processedCount_cons (f : FileModel) (fs : List FileModel) :
    processedCount (f :: fs)
      = if audioEncoded f then processedCount fs + 1
        else processedCount fs := by
  unfold processedCount
  rw [List.filter_cons]
  by_cases h : audioEncoded f
  · simp [h]
  · simp [h]

theorem encodeFailures_cons (f : FileModel) (fs : List FileModel) :
    encodeFailures (f :: fs)
      = if f.isAudio && f.embedResult.isNone then encodeFailures fs + 1
        else encodeFailures fs := by
  unfold encodeFailures
  rw [List.filter_cons]
  by_cases h : f.isAudio && f.embedResult.isNone
  · simp [h]
  · simp [h]

theorem skippedCount_cons (f : FileModel) (fs : List FileModel) :
    skippedCount (f :: fs)
      = if f.isAudio then skippedCount fs else skippedCount fs + 1 := by
  unfold skippedCount
  rw [List.filter_cons]
  by_cases h : f.isAudio
  · simp [h]
  · simp [h]

theorem count_partition (files : List FileModel) :
    processedCount files + encodeFailures files + skippedCount files
      = files.length := by
  induction files with
  | nil => rfl
  | cons f fs ih =>
      rw [processedCount_cons, encodeFailures_cons, skippedCount_cons,
          List.length_cons]
      by_cases hA : f.isAudio
      · cases hE : f.embedResult with
        | some emb =>
            rw [if_pos (by simp [audioEncoded, hA, hE]),
                if_neg (by simp [hA, hE]), if_pos hA]
            omega
        | none =>
            rw [if_neg (by simp [audioEncoded, hA, hE]),
                if_pos (by simp [hA, hE]), if_pos hA]
            omega
      · have hA' : f.isAudio = false := by
          revert hA
          cases f.isAudio <;> simp
        rw [if_neg (by simp [audioEncoded, hA']),
            if_neg (by simp [hA']), if_neg (by simp [hA'])]
        omega

theorem insert_ok_shape (s : Store) (content : String) (emb : List ℚ)
    (tags : List String) (s' : Store) (k : Nat)
    (h : s.insert content emb tags = .ok (s', k)) :
    s'.records = s.records ++ [⟨s.nextKey, content, emb, tags⟩] ∧
    s'.nextKey = s.nextKey + 1 := by
  unfold Store.insert at h
  split at h
  · injection h with h
    injection h with h hk
    subst h
    exact ⟨rfl, rfl⟩
  · split at h
    · injection h with h
      injection h with h hk
      subst h
      exact ⟨rfl, rfl⟩
    · cases h

theorem processFiles_counts (files : List FileModel) :
    ∀ s : Store,
      (processFiles s files).2.1 = processedCount files ∧
      (processFiles s files).2.2.2 = skippedCount files := by
  induction files with
  | nil => exact fun s => ⟨rfl, rfl⟩
  | cons f fs ih =>
      intro s
      rw [processedCount_cons, skippedCount_cons]
      by_cases hA : f.isAudio
      · cases hE : f.embedResult with
        | some emb =>
            have hAE : audioEncoded f = true := by
              simp [audioEncoded, hA, hE]
            rw [if_pos hAE, if_pos hA]
            cases hI : s.insert f.name emb ["audio", f.ftype] with
            | ok p =>
                rw [processFiles_cons_audio_ok s f fs emb p.1 p.2 hA hE
                    (by rw [hI])]
                exact ⟨congrArg (· + 1) (ih p.1).1, (ih p.1).2⟩
            | error err =>
                rw [processFiles_cons_audio_err s f fs emb err hA hE hI]
                exact ⟨congrArg (· + 1) (ih s).1, (ih s).2⟩
        | none =>
            have hAE : audioEncoded f = false := by
              simp [audioEncoded, hE]
            rw [if_neg (by simp [hAE]), if_pos hA]
            rw [processFiles_cons_encFail s f fs hA hE]
            exact ⟨(ih s).1, (ih s).2⟩
      · have hA' : f.isAudio = false := by
          revert hA
          cases f.isAudio <;> simp
        rw [if_neg (by simp [audioEncoded, hA']), if_neg (by simp [hA'])]
        rw [processFiles_cons_skip s f fs hA']
        exact ⟨(ih s).1, congrArg (· + 1) (ih s).2⟩

theorem processFiles_balance (files : List FileModel) :
    ∀ s : Store, ∃ g r,
      (processFiles s files).1.records.length = s.records.length + g ∧
      (processFiles s files).2.1 = g + r ∧
      (processFiles s files).2.2.1.length = encodeFailures files + r := by
  induction files with
  | nil => exact fun s => ⟨0, 0, rfl, rfl, rfl⟩
  | cons f fs ih =>
      intro s
      rw [encodeFailures_cons]
      by_cases hA : f.isAudio
      · cases hE : f.embedResult with
        | some emb =>
            rw [if_neg (by simp [hA, hE])]
            cases hI : s.insert f.name emb ["audio", f.ftype] with
            | ok p =>
                rw [processFiles_cons_audio_ok s f fs emb p.1 p.2 hA hE
                    (by rw [hI])]
                obtain ⟨g, r, h1, h2, h3⟩ := ih p.1
                have hsh := insert_ok_shape s f.name emb ["audio", f.ftype]
                  p.1 p.2 (by rw [hI])
                have hlen : p.1.records.length = s.records.length + 1 := by
                  rw [hsh.1]
                  simp
                refine ⟨g + 1, r, ?_, ?_, ?_⟩
                · show (processFiles p.1 fs).1.records.length
                    = s.records.length + (g + 1)
                  omega
                · show (processFiles p.1 fs).2.1 + 1 = g + 1 + r
                  omega
                · show (processFiles p.1 fs).2.2.1.length
                    = encodeFailures fs + r
                  exact h3
            | error err =>
                rw [processFiles_cons_audio_err s f fs emb err hA hE hI]
                obtain ⟨g, r, h1, h2, h3⟩ := ih s
                refine ⟨g, r + 1, ?_, ?_, ?_⟩
                · exact h1
                · show (processFiles s fs).2.1 + 1 = g + (r + 1)
                  omega
                · show ("Error inserting into DB"
                      :: (processFiles s fs).2.2.1).length
                    = encodeFailures fs + (r + 1)
                  rw [List.length_cons]
                  omega
        | none =>
            rw [if_pos (by simp [hA, hE])]
            rw [processFiles_cons_encFail s f fs hA hE]
            obtain ⟨g, r, h1, h2, h3⟩ := ih s
            refine ⟨g, r, h1, h2, ?_⟩
            show ("Error creating audio embedding"
                :: (processFiles s fs).2.2.1).length
              = encodeFailures fs + 1 + r
            rw [List.length_cons]
            omega
      · have hA' : f.isAudio = false := by
          revert hA
          cases f.isAudio <;> simp
        rw [if_neg (by simp [hA'])]
        rw [processFiles_cons_skip s f fs hA']
        exact ih s

theorem processFiles_fit (d : Nat) (files : List FileModel) :
    ∀ s : Store, s.dim = none ∨ s.dim = some d →
      (∀ f ∈ files, ∀ emb, f.embedResult = some emb → f.isAudio = true →
        emb.length = d) →
      ∃ newRecs,
        (processFiles s files).1.records = s.records ++ newRecs ∧
        newRecs.map (fun r => r.content)
          = (files.filter audioEncoded).map (fun f => f.name) ∧
        newRecs.map (fun r => r.key)
          = List.range' s.nextKey (processedCount files) ∧
        (processFiles s files).2.2.1.length = encodeFailures files := by
  induction files with
  | nil =>
      intro s hdim hfit
      exact ⟨[], by simp [processFiles], rfl, rfl, rfl⟩
  | cons f fs ih =>
      intro s hdim hfit
      by_cases hA : f.isAudio
      · cases hE : f.embedResult with
        | some emb =>
            have hfit0 : emb.length = d :=
              hfit f (List.mem_cons_self f fs) emb hE hA
            have hI : s.insert f.name emb ["audio", f.ftype]
                = .ok (⟨some d, s.nextKey + 1,
                    s.records ++ [⟨s.nextKey, f.name, emb,
                      ["audio", f.ftype]⟩]⟩, s.nextKey) := by
              rcases hdim with hd | hd
              · simp only [Store.insert, hd]
                rw [hfit0]
              · simp only [Store.insert, hd]
                rw [if_pos hfit0]
            rw [processFiles_cons_audio_ok s f fs emb _ _ hA hE hI]
            obtain ⟨newRecs, hrec, hcont, hkeys, herr⟩ :=
              ih ⟨some d, s.nextKey + 1,
                  s.records ++ [⟨s.nextKey, f.name, emb,
                    ["audio", f.ftype]⟩]⟩
                (Or.inr rfl)
                (fun f' hf' => hfit f' (List.mem_cons_of_mem f hf'))
            have hAE : audioEncoded f = true := by
              simp [audioEncoded, hA, hE]
            refine ⟨⟨s.nextKey, f.name, emb, ["audio", f.ftype]⟩ :: newRecs,
              ?_, ?_, ?_, ?_⟩
            · show (processFiles ⟨some d, s.nextKey + 1,
                  s.records ++ [⟨s.nextKey, f.name, emb,
                    ["audio", f.ftype]⟩]⟩ fs).1.records
                = s.records
                  ++ ⟨s.nextKey, f.name, emb, ["audio", f.ftype]⟩ :: newRecs
              rw [hrec]
              show (s.records ++ [⟨s.nextKey, f.name, emb,
                  ["audio", f.ftype]⟩]) ++ newRecs
                = s.records
                  ++ ⟨s.nextKey, f.name, emb, ["audio", f.ftype]⟩ :: newRecs
              rw [List.append_assoc, List.singleton_append]
            · rw [List.filter_cons, if_pos hAE, List.map_cons, List.map_cons]
              rw [hcont]
            · rw [List.map_cons, processedCount_cons, if_pos hAE]
              rw [show List.range' s.nextKey (processedCount fs + 1)
                  = s.nextKey :: List.range' (s.nextKey + 1)
                      (processedCount fs) from rfl]
              exact congrArg (List.cons s.nextKey) hkeys
            · show (processFiles ⟨some d, s.nextKey + 1,
                  s.records ++ [⟨s.nextKey, f.name, emb,
                    ["audio", f.ftype]⟩]⟩ fs).2.2.1.length
                = encodeFailures (f :: fs)
              rw [encodeFailures_cons, if_neg (by simp [hA, hE])]
              exact herr
        | none =>
            rw [processFiles_cons_encFail s f fs hA hE]
            obtain ⟨newRecs, hrec, hcont, hkeys, herr⟩ :=
              ih s hdim (fun f' hf' => hfit f' (List.mem_cons_of_mem f hf'))
            have hAE : audioEncoded f = false := by
              simp [audioEncoded, hE]
            refine ⟨newRecs, hrec, ?_, ?_, ?_⟩
            · rw [List.filter_cons, if_neg (by simp [hAE])]
              exact hcont
            · rw [processedCount_cons, if_neg (by simp [hAE])]
              exact hkeys
            · show ("Error creating audio embedding"
                  :: (processFiles s fs).2.2.1).length
                = encodeFailures (f :: fs)
              rw [List.length_cons, encodeFailures_cons,
                  if_pos (by simp [hA, hE]), herr]
      · have hA' : f.isAudio = false := by
          revert hA
          cases f.isAudio <;> simp
        rw [processFiles_cons_skip s f fs hA']
        obtain ⟨newRecs, hrec, hcont, hkeys, herr⟩ :=
          ih s hdim (fun f' hf' => hfit f' (List.mem_cons_of_mem f hf'))
        have hAE : audioEncoded f = false := by
          simp [audioEncoded, hA']
        refine ⟨newRecs, hrec, ?_, ?_, ?_⟩
        · rw [List.filter_cons, if_neg (by simp [hAE])]
          exact hcont
        · rw [processedCount_cons, if_neg (by simp [hAE])]
          exact hkeys
        · show (processFiles s fs).2.2.1.length = encodeFailures (f :: fs)
          rw [encodeFailures_cons, if_neg (by simp [hA'])]
          exact herr

theorem handleEmbed_reduces (m : ModelsState) (s : Store)
    (files : List FileModel) (hm : m.audioModel = true)
    (hp : m.audioProcessor = true) (hne : files ≠ []) :
    handleEmbedAudioFolder m (some s) files
      = (some (processFiles s files).1, (processFiles s files).2.1,
         (processFiles s files).2.2.1, (processFiles s files).2.2.2) := by
  rw [handleEmbedAudioFolder]
  rw [if_neg (by simp [List.isEmpty_iff, hne])]
  rw [hm, hp]
  rw [if_neg (by decide)]

/-- C3 as amended: a successful clear does NOT invalidate the in-memory
store handle — `db` still holds a store (now fresh and empty) — and an
insert attempted before re-initialization succeeds rather than failing
with `NotReady`; insert fails with the `NotReady` condition exactly when
the store was never initialized (`db` null); after (re-)initialization an
insert succeeds and the store size is 1. -/
theorem clear_handle_not_invalidated (s : Store) (content : String)
    (emb : List ℚ) (tags : List String) :
    clearDB (some s) ClearOutcome.success
      = (some Store.fresh, ["Database cleared."]) ∧
    (∃ s', insertIntoDB
        (clearDB (some s) ClearOutcome.success).1 content emb tags
        = (some s', ["Inserted: " ++ content]) ∧ s'.records.length = 1) ∧
    (∃ s', insertIntoDB (initVectorDB false).1 content emb tags
        = (some s', ["Inserted: " ++ content]) ∧ s'.records.length = 1) ∧
    insertIntoDB none content emb tags
      = (none, ["Database not initialized."]) :=
  ⟨rfl,
   ⟨⟨some emb.length, 2, [⟨1, content, emb, tags⟩]⟩, rfl, rfl⟩,
   ⟨⟨some emb.length, 2, [⟨1, content, emb, tags⟩]⟩, rfl, rfl⟩,
   rfl⟩

/-! ## Batch-embed claims (C4, C9) -/

/-- C4, counterexample to the claim as stated: a rejected insert
(here a `DimensionMismatch`: the store's established `D` is 1 and the
successfully encoded embedding has length 2) is recorded as an error and
gains no record, while still being counted as processed. For this run
`N = 1`, `M = 0` encode failures, `skipped = 0`, so the claim demands
`processed = 1`, exactly `0` recorded errors and a store gain of `1`; the
code reports `processed = 1` but records `1` error (`≠ M`) and gains `0`
records. -/
theorem batch_insert_failure_cex :
    (handleEmbedAudioFolder ⟨true, true, true, true⟩
        (some ⟨some 1, 2, [⟨1, "a", [1], []⟩]⟩)
        [⟨"b.wav", "audio/wav", some [1, 2]⟩]).2.2.1.length
      ≠ encodeFailures [⟨"b.wav", "audio/wav", some [1, 2]⟩] ∧
    (handleEmbedAudioFolder ⟨true, true, true, true⟩
        (some ⟨some 1, 2, [⟨1, "a", [1], []⟩]⟩)
        [⟨"b.wav", "audio/wav", some [1, 2]⟩]).1
      = some ⟨some 1, 2, [⟨1, "a", [1], []⟩]⟩ ∧
    (handleEmbedAudioFolder ⟨true, true, true, true⟩
        (some ⟨some 1, 2, [⟨1, "a", [1], []⟩]⟩)
        [⟨"b.wav", "audio/wav", some [1, 2]⟩]).2.1 = 1 := by
  refine ⟨?_, ?_, ?_⟩ <;> decide

/-- C4 as amended: for every batch-embed run over `N` supplied files of
which `M` fail encoding and `skipped` are non-matching media types, the
run completes with `processed = N - M - skipped` unconditionally (per-file
failures do not abort the batch); the recorded errors are `M` plus the
number `r` of rejected inserts and the store gains `processed - r`
records (each per-file embed or insert failure is recorded and the
remaining files are still processed); when every successfully encoded
embedding fits the store's established dimension, `r = 0`, so exactly `M`
errors are recorded and the store gains exactly `processed` records. -/
theorem batch_embed_summary (m : ModelsState) (s : Store)
    (files : List FileModel) (d : Nat) (hm : m.audioModel = true)
    (hp : m.audioProcessor = true) (hne : files ≠ []) :
    BatchSummary m s files d := by
  unfold BatchSummary
  rw [handleEmbed_reduces m s files hm hp hne]
  obtain ⟨hc, _⟩ := processFiles_counts files s
  obtain ⟨g, r, h1, h2, h3⟩ := processFiles_balance files s
  refine ⟨?_, ?_, ?_⟩
  · show (processFiles s files).2.1
      = files.length - encodeFailures files - skippedCount files
    have hpart := count_partition files
    omega
  · exact ⟨(processFiles s files).1, g, r, rfl, h1, h2, h3⟩
  · intro hdim hfit
    obtain ⟨newRecs, hrec, hcont, hkeys, herr⟩ :=
      processFiles_fit d files s hdim hfit
    have hnew : newRecs.length = processedCount files := by
      have hmap := congrArg List.length hcont
      rw [List.length_map, List.length_map] at hmap
      exact hmap
    constructor
    · exact herr
    · refine ⟨(processFiles s files).1, rfl, ?_⟩
      show (processFiles s files).1.records.length
        = s.records.length + (processFiles s files).2.1
      rw [hrec, List.length_append, hc, hnew]

theorem batch_embed_summary_witness :
    BatchSummary ⟨true, true, true, true⟩ Store.fresh
      [⟨"a.wav", "audio/wav", some [1]⟩] 1 :=
  batch_embed_summary ⟨true, true, true, true⟩ Store.fresh
    [⟨"a.wav", "audio/wav", some [1]⟩] 1 rfl rfl (by decide)

/-- C9: within a batch-embed run (here: one whose encoded embeddings fit
the store's dimension, so no insert is rejected), files are processed
sequentially in the order supplied: the store is extended by one record
per successfully processed file, the new records' contents appear in
exactly the supplied file order, and their keys are assigned in strictly
increasing (consecutive) order — so insert order equals supply order, key
order equals insert order, and the ascending-key tie-break of the query
engine is determined by the supplied file order. -/
theorem batch_embed_order (m : ModelsState) (s : Store)
    (files : List FileModel) (d : Nat) (hm : m.audioModel = true)
    (hp : m.audioProcessor = true) (hne : files ≠ [])
    (hdim : s.dim = none ∨ s.dim = some d)
    (hfit : ∀ f ∈ files, ∀ emb, f.embedResult = some emb →
      f.isAudio = true → emb.length = d) :
    BatchOrder m s files := by
  unfold BatchOrder
  rw [handleEmbed_reduces m s files hm hp hne]
  obtain ⟨newRecs, hrec, hcont, hkeys, _⟩ :=
    processFiles_fit d files s hdim hfit
  refine ⟨(processFiles s files).1, newRecs, rfl, hrec, hcont, hkeys, ?_⟩
  rw [hkeys]
  exact List.pairwise_lt_range' s.nextKey (processedCount files)

theorem batch_embed_order_witness :
    BatchOrder ⟨true, true, true, true⟩ Store.fresh
      [⟨"a.wav", "audio/wav", some [1]⟩] :=
  batch_embed_order ⟨true, true, true, true⟩ Store.fresh
    [⟨"a.wav", "audio/wav", some [1]⟩] 1 rfl rfl (by decide) (Or.inl rfl)
    (by
      intro f hf emb hE hA
      rw [List.mem_singleton] at hf
      subst hf
      injection hE with hE
      subst hE
      rfl)

end ClapWeb
